import Mathlib

/-!
Verification of the FAIZAN-FILE-STORE single-page application (src/App.jsx).

The development shallowly embeds the logic of the React component:
the encoded-blob codec (data-URL / base64, produced by
`FileReader.readAsDataURL` at upload and decoded by the browser at
download), the upload / delete / login / logout handlers, and the
real-time snapshot subscription callback.  Handlers are modelled as
pure functions from the component state (and the relevant external
inputs: the selected file, the `window.confirm` answer, the remote
call outcome) to the next component state together with the list of
remote-registry interactions they submit.
-/

namespace FileStore

/-! ## Encoded-blob codec

Modelled from the spec: the codec is `FileReader.readAsDataURL` (encode)
and the browser data-URL handling behind `link.href = file.data`
(decode); both are platform code, not present in src/.  The spec calls
it a deterministic, lossless base64 data-URL encoding, which is what the
platform implements: `data:<mime>;base64,<base64 of the bytes>`. -/

/-- The 64-character base64 alphabet of RFC 4648. -/
def b64Alphabet : List Char :=
  "ABCDEFGHIJKLMNOPQRSTUVWXYZabcdefghijklmnopqrstuvwxyz0123456789+/".toList

/-- Character of a six-bit group. -/
def b64Char (n : Nat) : Char := b64Alphabet.getD n 'A'

/-- Six-bit value of an alphabet character; `none` off the alphabet. -/
def b64Val (c : Char) : Option Nat := b64Alphabet.findIdx? (fun x => x == c)

/-- Base64 encoding of a byte list, with `=` padding. -/
def encodeB64 : List Nat → List Char
  | [] => []
  | [a] => [b64Char (a / 4), b64Char (a % 4 * 16), '=', '=']
  | [a, b] => [b64Char (a / 4), b64Char (a % 4 * 16 + b / 16), b64Char (b % 16 * 4), '=']
  | a :: b :: c :: rest =>
      b64Char (a / 4) :: b64Char (a % 4 * 16 + b / 16) ::
      b64Char (b % 16 * 4 + c / 64) :: b64Char (c % 64) :: encodeB64 rest

/-- Base64 decoding, the inverse of `encodeB64`. -/
def decodeB64 : List Char → Option (List Nat)
  | [] => some []
  | c1 :: c2 :: c3 :: c4 :: rest =>
      if c3 = '=' then
        if c4 = '=' ∧ rest = [] then
          match b64Val c1, b64Val c2 with
          | some v1, some v2 => some [v1 * 4 + v2 / 16]
          | _, _ => none
        else none
      else if c4 = '=' then
        if rest = [] then
          match b64Val c1, b64Val c2, b64Val c3 with
          | some v1, some v2, some v3 =>
              some [v1 * 4 + v2 / 16, v2 % 16 * 16 + v3 / 4]
          | _, _, _ => none
        else none
      else
        match b64Val c1, b64Val c2, b64Val c3, b64Val c4, decodeB64 rest with
        | some v1, some v2, some v3, some v4, some bs =>
            some ((v1 * 4 + v2 / 16) :: (v2 % 16 * 16 + v3 / 4) :: (v3 % 4 * 64 + v4) :: bs)
        | _, _, _, _, _ => none
  | _ => none

/-- `Encode`: the data URL `readAsDataURL` produces for a file with the
given MIME type and bytes. -/
def encodeDataURL (mime : List Char) (bytes : List Nat) : List Char :=
  "data:".toList ++ mime ++ ";base64,".toList ++ encodeB64 bytes

/-- Skip to just after the first comma. -/
def afterComma : List Char → Option (List Char)
  | [] => none
  | c :: rest => if c = ',' then some rest else afterComma rest

/-- `Decode`: recover the bytes from a base64 data URL, as the browser
does when the URL is used as a download link. -/
def decodeDataURL (s : List Char) : Option (List Nat) :=
  (afterComma s).bind decodeB64

theorem b64Val_b64Char_fin : ∀ n : Fin 64, b64Val (b64Char n.val) = some n.val := by
  decide

theorem b64Char_ne_pad_fin : ∀ n : Fin 64, b64Char n.val ≠ '=' := by
  decide

theorem b64Val_b64Char (n : Nat) (h : n < 64) : b64Val (b64Char n) = some n :=
  b64Val_b64Char_fin ⟨n, h⟩

theorem b64Char_ne_pad (n : Nat) (h : n < 64) : b64Char n ≠ '=' :=
  b64Char_ne_pad_fin ⟨n, h⟩

theorem decodeB64_encodeB64 :
    ∀ bs : List Nat, (∀ x ∈ bs, x < 256) → decodeB64 (encodeB64 bs) = some bs := by
  intro bs
  match bs with
  | [] => intro _; simp [encodeB64, decodeB64]
  | [a] =>
      intro h
      have ha : a < 256 := h a (by simp)
      have h1 : a / 4 < 64 := by omega
      have h2 : a % 4 * 16 < 64 := by omega
      simp only [encodeB64, decodeB64, if_true]
      rw [b64Val_b64Char _ h1, b64Val_b64Char _ h2,
        if_pos (And.intro trivial trivial)]
      simp only [Option.some.injEq, List.cons.injEq, and_true]
      omega
  | [a, b] =>
      intro h
      have ha : a < 256 := h a (by simp)
      have hb : b < 256 := h b (by simp)
      have h1 : a / 4 < 64 := by omega
      have h2 : a % 4 * 16 + b / 16 < 64 := by omega
      have h3 : b % 16 * 4 < 64 := by omega
      simp only [encodeB64, decodeB64]
      rw [if_neg (b64Char_ne_pad _ h3)]
      simp only [if_true]
      rw [b64Val_b64Char _ h1, b64Val_b64Char _ h2, b64Val_b64Char _ h3]
      simp only [Option.some.injEq, List.cons.injEq, and_true]
      constructor
      · omega
      · omega
  | a :: b :: c :: rest =>
      intro h
      have ha : a < 256 := h a (by simp)
      have hb : b < 256 := h b (by simp)
      have hc : c < 256 := h c (by simp)
      have h1 : a / 4 < 64 := by omega
      have h2 : a % 4 * 16 + b / 16 < 64 := by omega
      have h3 : b % 16 * 4 + c / 64 < 64 := by omega
      have h4 : c % 64 < 64 := by omega
      have ih := decodeB64_encodeB64 rest (fun x hx => h x (by simp [hx]))
      simp only [encodeB64, decodeB64]
      rw [if_neg (b64Char_ne_pad _ h3), if_neg (b64Char_ne_pad _ h4),
        b64Val_b64Char _ h1, b64Val_b64Char _ h2, b64Val_b64Char _ h3,
        b64Val_b64Char _ h4, ih]
      simp only [Option.some.injEq, List.cons.injEq, and_true]
      refine ⟨by omega, by omega, by omega⟩

theorem afterComma_append (l r : List Char) (hl : ',' ∉ l) :
    afterComma (l ++ ',' :: r) = some r := by
  induction l with
  | nil => simp [afterComma]
  | cons x xs ih =>
      have hx : x ≠ ',' := by intro hx; exact hl (by simp [hx])
      have hxs : ',' ∉ xs := fun hm => hl (by simp [hm])
      simp only [List.cons_append, afterComma, if_neg hx]
      exact ih hxs

theorem decodeDataURL_encodeDataURL (mime : List Char) (bytes : List Nat)
    (hm : ',' ∉ mime) (hb : ∀ x ∈ bytes, x < 256) :
    decodeDataURL (encodeDataURL mime bytes) = some bytes := by
  unfold decodeDataURL encodeDataURL
  have hpre : ',' ∉ ("data:".toList ++ mime ++ ";base64".toList) := by
    intro hmem
    simp only [List.mem_append] at hmem
    rcases hmem with (h | h) | h
    · revert h; decide
    · exact hm h
    · revert h; decide
  have : "data:".toList ++ mime ++ ";base64,".toList ++ encodeB64 bytes
      = ("data:".toList ++ mime ++ ";base64".toList) ++ ',' :: encodeB64 bytes := by
    simp [List.append_assoc]
  rw [this, afterComma_append _ _ hpre]
  simp [decodeB64_encodeB64 bytes hb]

/-! ## Component state and handlers (embedded from src/App.jsx) -/

/-- A toast notification, as set by `showToast(message, type)`. -/
structure Toast where
  message : String
  type : String
deriving DecidableEq

/-- One entry of the local `files` list: `{ id: doc.id, ...doc.data() }`. -/
structure FileRecord where
  id : String
  name : String
  type : String
  size : Nat
  data : List Char
  createdAt : Nat
deriving DecidableEq

/-- A document delivered by the snapshot: its id plus its data fields. -/
structure SnapshotDoc where
  id : String
  name : String
  type : String
  size : Nat
  data : List Char
  createdAt : Nat
deriving DecidableEq

/-- The component's React state hooks relevant to the claims. -/
structure AppState where
  files : List FileRecord
  isAdmin : Bool
  showLoginModal : Bool
  pinInput : String
  uploading : Bool
  toast : Option Toast
deriving DecidableEq

/-- `showToast`: sets the toast notification (the auto-dismiss timer is
not modelled). -/
def showToast (s : AppState) (message : String) (t : String) : AppState :=
  { s with toast := some ⟨message, t⟩ }

/-- The fixed admin secret, `const ADMIN_PIN = "432272"`. -/
def ADMIN_PIN : String := "432272"

/-- `handleAdminLogin`: exact string comparison of the PIN input against
`ADMIN_PIN`; on match sets `isAdmin`, closes the modal, clears the input
and toasts success; otherwise only toasts an error. -/
def handleAdminLogin (s : AppState) : AppState :=
  if s.pinInput = ADMIN_PIN then
    { s with isAdmin := true, showLoginModal := false, pinInput := "",
             toast := some ⟨"Welcome Admin! Access Granted.", "success"⟩ }
  else
    showToast s "Incorrect PIN. Access Denied." "error"

/-- `handleLogout`: unconditionally clears `isAdmin` and toasts. -/
def handleLogout (s : AppState) : AppState :=
  showToast { s with isAdmin := false } "Logged out of Admin Panel" "success"

/-- A remote-registry interaction submitted by a handler. -/
inductive RemoteAction where
  | addDoc (name : String) (mimeType : String) (size : Nat) (data : List Char)
  | deleteDoc (id : String)
deriving DecidableEq

/-- The selected file as the browser reports it: `e.target.files[0]`. -/
structure RawFile where
  name : String
  type : String
  size : Nat
  bytes : List Nat
deriving DecidableEq

/-- `handleFileUpload`: the upload handler.  `selected` is
`e.target.files[0]` (`none` when the selection is empty), `remoteOk` is
the outcome of the awaited `addDoc` call.  Returns the final component
state together with the remote interactions submitted.  The
`FileReader` result `base64String` is the data URL of the file. -/
def handleFileUpload (s : AppState) (selected : Option RawFile) (remoteOk : Bool) :
    AppState × List RemoteAction :=
  match selected with
  | none => (s, [])
  | some file =>
      if file.size > 700000 then
        (showToast s "File too large! Max 700KB for this demo." "error", [])
      else
        let base64String := encodeDataURL file.type.toList file.bytes
        let submitted := RemoteAction.addDoc file.name file.type file.size base64String
        if remoteOk then
          (showToast { s with uploading := false } "File uploaded successfully!" "success",
           [submitted])
        else
          (showToast { s with uploading := false } "Upload failed." "error", [submitted])

/-- `handleDelete`: asks `window.confirm` first (`confirmed` is the
user's answer); if confirmed, submits `deleteDoc` and toasts success or
failure according to `remoteOk`. -/
def handleDelete (s : AppState) (fileId : String) (confirmed : Bool) (remoteOk : Bool) :
    AppState × List RemoteAction :=
  if confirmed then
    if remoteOk then
      (showToast s "File removed." "success", [RemoteAction.deleteDoc fileId])
    else
      (showToast s "Could not delete file." "error", [RemoteAction.deleteDoc fileId])
  else (s, [])

/-- The snapshot callback's per-document mapping `{ id: doc.id,
...doc.data() }`. -/
def docToRecord (d : SnapshotDoc) : FileRecord :=
  ⟨d.id, d.name, d.type, d.size, d.data, d.createdAt⟩

/-- The `onSnapshot` success callback: replaces `files` with the mapped
documents of the delivered snapshot. -/
def onSnapshotCallback (s : AppState) (docs : List SnapshotDoc) : AppState :=
  { s with files := docs.map docToRecord }

/-- The `onSnapshot` error callback: only logs and toasts. -/
def onSnapshotError (s : AppState) : AppState :=
  showToast s "Error loading files" "error"

/-- Sort direction of a Firestore `orderBy` clause. -/
inductive SortDirection where
  | asc
  | desc
deriving DecidableEq

/-- An `orderBy` query specification. -/
structure QuerySpec where
  orderByField : String
  direction : SortDirection
deriving DecidableEq

/-- The live query of the subscription:
`query(collection(...), orderBy('createdAt', 'desc'))`. -/
def filesQuery : QuerySpec :=
  ⟨"createdAt", SortDirection.desc⟩

/-- A delivered snapshot's document order: `createdAt` descending. -/
def sortedByCreatedAtDesc (docs : List SnapshotDoc) : Prop :=
  docs.Pairwise (fun d e => e.createdAt ≤ d.createdAt)

instance : DecidablePred sortedByCreatedAtDesc := fun docs =>
  List.instDecidablePairwise docs

/-- Modelled from the spec: the remote registry (an external
collaborator, not implemented in src/) keeps the record set ordered by
`createdAt` descending; a create inserts the new document at its
descending-order position. -/
def registryInsert (d : SnapshotDoc) : List SnapshotDoc → List SnapshotDoc
  | [] => [d]
  | e :: rest =>
      if e.createdAt ≤ d.createdAt then d :: e :: rest else e :: registryInsert d rest

theorem registryInsert_length (d : SnapshotDoc) (l : List SnapshotDoc) :
    (registryInsert d l).length = l.length + 1 := by
  induction l with
  | nil => rfl
  | cons e rest ih =>
      simp only [registryInsert]
      split
      · simp
      · simp [ih]

theorem registryInsert_mem (d : SnapshotDoc) (l : List SnapshotDoc) :
    d ∈ registryInsert d l := by
  induction l with
  | nil => simp [registryInsert]
  | cons e rest ih =>
      simp only [registryInsert]
      split
      · simp
      · simp [ih]

/-! ## Concrete fixtures used by witnesses -/

/-- An initial component state: empty list, guest, no modal, no toast. -/
def s0 : AppState :=
  ⟨[], false, false, "", false, none⟩

/-- A 700001-byte file (only its reported size matters to the guard). -/
def bigFile : RawFile :=
  ⟨"big.bin", "application/octet-stream", 700001, []⟩

/-- A small in-bounds file holding the bytes of "hello". -/
def smallFile : RawFile :=
  ⟨"a.txt", "text/plain", 5, [104, 101, 108, 108, 111]⟩

/-- A snapshot document with timestamp 5. -/
def docA : SnapshotDoc :=
  ⟨"idA", "a.txt", "text/plain", 5, encodeDataURL "text/plain".toList [104, 101, 108, 108, 111], 5⟩

/-- A snapshot document with timestamp 3. -/
def docB : SnapshotDoc :=
  ⟨"idB", "b.txt", "text/plain", 2, encodeDataURL "text/plain".toList [104, 105], 3⟩

/-! ## Claims -/

/-- C1: decoding the codec's textual (data-URL/base64) encoding of any
byte sequence `b` — the empty sequence included — yields exactly `b`:
`Decode(Encode(b)) = b`. -/
theorem c1_codec_roundtrip (mime : List Char) (bytes : List Nat)
    (hm : ',' ∉ mime) (hb : ∀ x ∈ bytes, x < 256) :
    decodeDataURL (encodeDataURL mime bytes) = some bytes :=
  decodeDataURL_encodeDataURL mime bytes hm hb

/-- Witness for C1 at the bytes of "hello" with MIME type text/plain,
and at the empty byte sequence. -/
theorem c1_codec_roundtrip_witness :
    (',' ∉ "text/plain".toList)
    ∧ decodeDataURL (encodeDataURL "text/plain".toList [104, 101, 108, 108, 111])
        = some [104, 101, 108, 108, 111]
    ∧ decodeDataURL (encodeDataURL "text/plain".toList []) = some [] :=
  ⟨by decide,
   c1_codec_roundtrip "text/plain".toList [104, 101, 108, 108, 111] (by decide) (by decide),
   c1_codec_roundtrip "text/plain".toList [] (by decide) (by decide)⟩

/-- C2: a file larger than 700000 bytes makes the upload handler fail
immediately: no remote interaction is submitted and the only state
change is the error toast; a file of at most 700000 bytes does not
trigger the guard — the `addDoc` write is submitted. -/
theorem c2_size_guard (s : AppState) (file : RawFile) (remoteOk : Bool) :
    (file.size > 700000 →
      handleFileUpload s (some file) remoteOk
        = ({ s with toast := some ⟨"File too large! Max 700KB for this demo.", "error"⟩ }, []))
    ∧ (file.size ≤ 700000 →
      (handleFileUpload s (some file) remoteOk).2
        = [RemoteAction.addDoc file.name file.type file.size
            (encodeDataURL file.type.toList file.bytes)]) := by
  constructor
  · intro hbig
    simp [handleFileUpload, if_pos hbig, showToast]
  · intro hsmall
    have : ¬ file.size > 700000 := by omega
    cases remoteOk <;> simp [handleFileUpload, if_neg this]

/-- Witness for C2: a 700001-byte file yields no remote action; a
5-byte file yields the `addDoc` write. -/
theorem c2_size_guard_witness :
    (handleFileUpload s0 (some bigFile) true).2 = []
    ∧ (handleFileUpload s0 (some smallFile) true).2
        = [RemoteAction.addDoc "a.txt" "text/plain" 5
            (encodeDataURL "text/plain".toList [104, 101, 108, 108, 111])] := by
  constructor
  · rw [(c2_size_guard s0 bigFile true).1 (by decide)]
  · rw [(c2_size_guard s0 smallFile true).2 (by decide)]
    rfl

/-- C3: the AdminSession state machine over the boolean `isAdmin`
(exactly two states): authenticating with the exact PIN sets Admin;
any other string leaves the state unchanged (Guest stays Guest) and
reports failure; logout always yields Guest, from Admin and from
Guest alike. -/
theorem c3_admin_state_machine (s : AppState) :
    (s.pinInput = ADMIN_PIN → (handleAdminLogin s).isAdmin = true)
    ∧ (s.pinInput ≠ ADMIN_PIN →
        (handleAdminLogin s).isAdmin = s.isAdmin
        ∧ (handleAdminLogin s).toast = some ⟨"Incorrect PIN. Access Denied.", "error"⟩)
    ∧ (handleLogout s).isAdmin = false := by
  refine ⟨fun hpin => ?_, fun hpin => ?_, ?_⟩
  · simp [handleAdminLogin, if_pos hpin]
  · constructor <;> simp [handleAdminLogin, if_neg hpin, showToast]
  · simp [handleLogout, showToast]

/-- Witness for C3: the correct PIN grants Admin; a wrong (empty) PIN
leaves the Guest state unchanged. -/
theorem c3_admin_state_machine_witness :
    (handleAdminLogin { s0 with pinInput := "432272" }).isAdmin = true
    ∧ (handleAdminLogin s0).isAdmin = s0.isAdmin :=
  ⟨(c3_admin_state_machine { s0 with pinInput := "432272" }).1 rfl,
   ((c3_admin_state_machine s0).2.1 (by decide)).1⟩

/-- C4: no handler mutates the cached `files` sequence directly — the
upload and delete handlers (and the login/logout handlers and the
subscription error callback) leave `files` untouched on every
execution; the snapshot success callback is the only operation that
replaces it, and it sets it to the delivered documents. -/
theorem c4_files_only_set_by_snapshot :
    (∀ s sel ok, ((handleFileUpload s sel ok).1).files = s.files)
    ∧ (∀ s fileId conf ok, ((handleDelete s fileId conf ok).1).files = s.files)
    ∧ (∀ s, (handleAdminLogin s).files = s.files)
    ∧ (∀ s, (handleLogout s).files = s.files)
    ∧ (∀ s, (onSnapshotError s).files = s.files)
    ∧ (∀ s docs, (onSnapshotCallback s docs).files = docs.map docToRecord) := by
  refine ⟨?_, ?_, ?_, ?_, ?_, ?_⟩
  · intro s sel ok
    cases sel with
    | none => rfl
    | some file =>
        by_cases hbig : file.size > 700000
        · simp [handleFileUpload, if_pos hbig, showToast]
        · cases ok <;> simp [handleFileUpload, if_neg hbig, showToast]
  · intro s fileId conf ok
    cases conf <;> cases ok <;> simp [handleDelete, showToast]
  · intro s
    by_cases hpin : s.pinInput = ADMIN_PIN <;>
      simp [handleAdminLogin, hpin, showToast]
  · intro s
    simp [handleLogout, showToast]
  · intro s
    simp [onSnapshotError, showToast]
  · intro s docs
    rfl

/-- C5: the subscription error callback leaves the previously cached
snapshot in place — it only sets the error toast and changes nothing
else of the state. -/
theorem c5_subscription_error_keeps_snapshot (s : AppState) :
    (onSnapshotError s).files = s.files
    ∧ onSnapshotError s = { s with toast := some ⟨"Error loading files", "error"⟩ } := by
  constructor <;> rfl

/-- C6: when the remote delete fails, the handler submits the delete,
reports the failure with an error toast, and leaves the local state —
in particular the cached `files` sequence — otherwise unchanged. -/
theorem c6_delete_failure_local_state (s : AppState) (fileId : String) :
    ((handleDelete s fileId true false).1).files = s.files
    ∧ (handleDelete s fileId true false).1
        = { s with toast := some ⟨"Could not delete file.", "error"⟩ }
    ∧ (handleDelete s fileId true false).2 = [RemoteAction.deleteDoc fileId] := by
  refine ⟨rfl, rfl, rfl⟩

/-- C7 counterexample: with the confirmation dialog declined, `Remove`
submits nothing — the delete is not sent unconditionally, refuting the
claim that this component performs no confirmation check. -/
theorem c7_counterexample :
    ¬ RemoteAction.deleteDoc "file1" ∈ (handleDelete s0 "file1" false true).2 := by
  decide

/-- C7 amended: `Remove` first asks for confirmation via
`window.confirm`; if the user declines, no delete is submitted; if the
user confirms, the delete is submitted unconditionally with no other
precondition check. -/
theorem c7_confirmation_gate (s : AppState) (fileId : String) (ok : Bool) :
    (handleDelete s fileId true ok).2 = [RemoteAction.deleteDoc fileId]
    ∧ (handleDelete s fileId false ok).2 = [] := by
  cases ok <;> exact ⟨rfl, rfl⟩

/-- C8: an accepted upload submits exactly one `addDoc` write carrying
the input file's name, MIME type and byte size, whose payload is the
codec's encoding of the input bytes (the timestamp is left to the
server); decoding that payload recovers the bytes, and the registry's
next snapshot (modelled from the spec as descending-order insertion)
has one more document, the new one among them. -/
theorem c8_upload_record (s : AppState) (file : RawFile) (newId : String) (ts : Nat)
    (docs : List SnapshotDoc)
    (hsize : file.size ≤ 700000)
    (hmime : ',' ∉ file.type.toList)
    (hbytes : ∀ x ∈ file.bytes, x < 256) :
    (handleFileUpload s (some file) true).2
      = [RemoteAction.addDoc file.name file.type file.size
          (encodeDataURL file.type.toList file.bytes)]
    ∧ decodeDataURL (encodeDataURL file.type.toList file.bytes) = some file.bytes
    ∧ (registryInsert
        ⟨newId, file.name, file.type, file.size,
          encodeDataURL file.type.toList file.bytes, ts⟩ docs).length = docs.length + 1
    ∧ (⟨newId, file.name, file.type, file.size,
          encodeDataURL file.type.toList file.bytes, ts⟩ : SnapshotDoc)
        ∈ registryInsert
            ⟨newId, file.name, file.type, file.size,
              encodeDataURL file.type.toList file.bytes, ts⟩ docs := by
  have hbig : ¬ file.size > 700000 := by omega
  exact ⟨by simp [handleFileUpload, if_neg hbig],
    decodeDataURL_encodeDataURL file.type.toList file.bytes hmime hbytes,
    registryInsert_length _ docs,
    registryInsert_mem _ docs⟩

/-- Witness for C8: the small "hello" file, server id "idNew" and
timestamp 7, against a one-document registry. -/
theorem c8_upload_record_witness :
    (handleFileUpload s0 (some smallFile) true).2
      = [RemoteAction.addDoc "a.txt" "text/plain" 5
          (encodeDataURL "text/plain".toList [104, 101, 108, 108, 111])]
    ∧ (registryInsert
        ⟨"idNew", "a.txt", "text/plain", 5,
          encodeDataURL "text/plain".toList [104, 101, 108, 108, 111], 7⟩ [docB]).length
        = 2 := by
  have h := c8_upload_record s0 smallFile "idNew" 7 [docB]
    (by decide) (by decide) (by decide)
  exact ⟨h.1, h.2.2.1⟩

/-- C9: the subscription's query requests `createdAt` descending; the
snapshot callback installs the delivered documents position for
position (`files = docs.map docToRecord`); and in a delivered
descending-ordered snapshot, a document with a strictly later
timestamp than every other is first — both in the snapshot and in the
cached list. -/
theorem c9_snapshot_order (s : AppState) (docs : List SnapshotDoc) (d : SnapshotDoc)
    (hsorted : sortedByCreatedAtDesc docs)
    (hd : d ∈ docs)
    (hlatest : ∀ e ∈ docs, e ≠ d → e.createdAt < d.createdAt) :
    filesQuery.orderByField = "createdAt"
    ∧ filesQuery.direction = SortDirection.desc
    ∧ (onSnapshotCallback s docs).files = docs.map docToRecord
    ∧ docs.head? = some d
    ∧ (onSnapshotCallback s docs).files.head? = some (docToRecord d) := by
  have hhead : docs.head? = some d := by
    cases docs with
    | nil => cases hd
    | cons e rest =>
        by_cases he : e = d
        · rw [he]
          rfl
        · exfalso
          have hlt : e.createdAt < d.createdAt := hlatest e (by simp) he
          have hdr : d ∈ rest := by
            rcases List.mem_cons.mp hd with h | h
            · exact absurd h.symm he
            · exact h
          have hle : d.createdAt ≤ e.createdAt :=
            (List.pairwise_cons.mp hsorted).1 d hdr
          omega
  refine ⟨rfl, rfl, rfl, hhead, ?_⟩
  show (docs.map docToRecord).head? = some (docToRecord d)
  rw [List.head?_map, hhead]
  rfl

/-- Witness for C9: a two-document snapshot with timestamps 5 and 3;
the timestamp-5 document is first and maps to the head of `files`. -/
theorem c9_snapshot_order_witness :
    [docA, docB].head? = some docA
    ∧ (onSnapshotCallback s0 [docA, docB]).files.head? = some (docToRecord docA) := by
  have h := c9_snapshot_order s0 [docA, docB] docA
    (by decide) (by decide) (by decide)
  exact ⟨h.2.2.2.1, h.2.2.2.2⟩

/-- C10: invoking the upload handler with no file selected returns
immediately: the state is exactly unchanged (no uploading flag, no
toast) and no remote interaction is submitted. -/
theorem c10_empty_selection_noop (s : AppState) (ok : Bool) :
    handleFileUpload s none ok = (s, []) :=
  rfl

end FileStore
